import Mathlib

/-!
Verification of the LOOS core parsing subsystems: the XDR-style binary word
codec (`src/xdr.hpp`, classes `loos::internal::XDRReader` / `XDRWriter`) and
the Amber parmtop topology parser (`amber.cpp`, class `loos::Amber`).

The C++ code is shallowly embedded: streams become lists of bytes (natural
numbers; a byte is a value `< 256`), machine `uint` arithmetic is `Nat` with
explicit `% 2^32` where wraparound matters, fallible operations return
`Option`/`Except`, and out-of-bounds accesses that are undefined behaviour in
C++ are modelled as explicit error branches.
-/

/-- Equality of `Except` results is decidable when both components are. -/
instance {ε α : Type} [DecidableEq ε] [DecidableEq α] : DecidableEq (Except ε α) := fun x y =>
  match x, y with
  | .error a, .error b => decidable_of_iff (a = b) (by simp)
  | .error _, .ok _ => .isFalse (fun h => Except.noConfusion h)
  | .ok _, .error _ => .isFalse (fun h => Except.noConfusion h)
  | .ok a, .ok b => decidable_of_iff (a = b) (by simp)

namespace XDR

/-- Host endianness.  The codec's constructor probes the host byte order; the
`need_to_swab` flag in `XDRReader`/`XDRWriter` is set exactly when the host is
little-endian. -/
inductive Endian where
  | big : Endian
  | little : Endian
deriving DecidableEq

/-- `need_to_swab`: true on a little-endian host (the wire order is big-endian). -/
def needToSwab : Endian → Bool
  | .big => false
  | .little => true

/-- The low-to-high (little-endian) byte decomposition of a value, `w` bytes. -/
def leBytes : Nat → Nat → List Nat
  | 0, _ => []
  | w + 1, v => v % 256 :: leBytes w (v / 256)

/-- Recompose a value from bytes listed least-significant first. -/
def loadLE : List Nat → Nat
  | [] => 0
  | b :: bs => b + 256 * loadLE bs

/-- In-memory bytes (lowest address first) of a `w`-byte value on host `e`. -/
def storeBytes (e : Endian) (w v : Nat) : List Nat :=
  match e with
  | .little => leBytes w v
  | .big => (leBytes w v).reverse

/-- Value held by a buffer of in-memory bytes (lowest address first) on host `e`. -/
def loadBytes (e : Endian) (bs : List Nat) : Nat :=
  match e with
  | .little => loadLE bs
  | .big => loadLE bs.reverse

/-- `swab` on a `w`-byte value: reverse its in-memory byte order.  As a value
operation this is endian-independent: the bytes of the value are reversed. -/
def swabVal (w v : Nat) : Nat :=
  loadLE (leBytes w v).reverse

/-- Error kinds of the codec: `XDRDataSizeError` for an over-wide scalar, and
the stream-fault condition (C++ reports it by returning 0 from the call). -/
inductive XErr where
  | sizeErr : XErr
  | readFail : XErr
deriving DecidableEq

/-- An input stream: remaining bytes plus the `fail` bit of `std::istream`. -/
structure IStream where
  data : List Nat
  fail : Bool
deriving DecidableEq

/-- `istream::read(buf, n)`: on a good stream with `n` bytes available,
consume them; with fewer, consume everything and set the fail bit; on an
already-failed stream, read nothing. -/
def isRead (s : IStream) (n : Nat) : List Nat × IStream :=
  if s.fail then ([], s)
  else if n ≤ s.data.length then (s.data.take n, ⟨s.data.drop n, false⟩)
  else (s.data, ⟨[], true⟩)

/-- The four wire bytes produced by `XDRWriter::write<T>(p)` for a `w`-byte
value `v` on host `e`: the value is stored at the start of an (otherwise
uninitialised, modelled as zero) 4-byte word in host order, and the whole
word is byte-swapped when `sizeof(T) > 1` and the host needs swabbing. -/
def wireWord (e : Endian) (w v : Nat) : List Nat :=
  let u := storeBytes e w v ++ List.replicate (4 - w) 0
  if 1 < w ∧ needToSwab e then u.reverse else u

/-- `XDRWriter::write<T>(p)` (src/xdr.hpp:192-208): throws `XDRDataSizeError`
when `sizeof(T)` exceeds the 4-byte block, otherwise appends one word. -/
def writeScalar (e : Endian) (w v : Nat) (out : List Nat) : Except XErr (List Nat) :=
  if 4 < w then .error .sizeErr
  else .ok (out ++ wireWord e w v)

/-- `XDRReader::read<T>(p)` (src/xdr.hpp:67-78): throws `XDRDataSizeError` when
`sizeof(T)` exceeds the block, otherwise reads `sizeof(block_type)` = 4 bytes
into the `w`-byte object `result` (the first `w` bytes land in the object:
this models the C++ flat-memory reinterpretation, which over-reads for
`w < 4`), swabs when `sizeof(T) > 1` on a swapping host, and reports the
stream fail bit. -/
def readScalar (e : Endian) (w : Nat) (s : IStream) : Except XErr (Nat × IStream) :=
  if 4 < w then .error .sizeErr
  else
    let (bytes, s1) := isRead s 4
    if s1.fail then .error .readFail
    else
      let v := loadBytes e (bytes.take w)
      let v := if 1 < w ∧ needToSwab e then swabVal w v else v
      .ok (v, s1)

/-- Write then read back one scalar of width `w` through a fresh stream. -/
def roundTrip (e : Endian) (w v : Nat) : Except XErr Nat :=
  match writeScalar e w v [] with
  | .error err => .error err
  | .ok out =>
    match readScalar e w ⟨out, false⟩ with
    | .error err => .error err
    | .ok (r, _) => .ok r

/-- XDR padding: `rndup = n % 4; if (rndup > 0) rndup = 4 - rndup`. -/
def padOf (n : Nat) : Nat :=
  if n % 4 = 0 then 0 else 4 - n % 4

/-- `XDRWriter::write(const char* p, const uint n)` (src/xdr.hpp:237-255):
append the `n` payload bytes then zero padding to the next word boundary;
returns `n` unless the stream failed (the output stream is modelled as
reliable).  Result is (return value, new output). -/
def writeOpaque (data out : List Nat) : Nat × List Nat :=
  (data.length, out ++ data ++ List.replicate (padOf data.length) 0)

/-- `XDRReader::read(char* p, uint n)` (src/xdr.hpp:106-124): returns 1
immediately when `n = 0`; otherwise reads `n` bytes (returning 0 when that
read fails) and then consumes the padding bytes.  Result is
(return value, bytes read, stream after). -/
def readOpaque (n : Nat) (s : IStream) : Nat × List Nat × IStream :=
  if n = 0 then (1, [], s)
  else
    let (bs, s1) := isRead s n
    if s1.fail then (0, bs, s1)
    else
      let pad := padOf n
      if pad = 0 then (n, bs, s1)
      else (n, bs, (isRead s1 pad).2)

/-- `XDRWriter::write(const char* p)` / `write(const std::string&)`
(src/xdr.hpp:258-264): `n = strlen(p)` (the bytes up to the first NUL), write
`n` as a word-sized scalar, then the bytes as an opaque block. -/
def writeString (e : Endian) (s : List Nat) (out : List Nat) : List Nat :=
  let cs := s.takeWhile (fun b => b != 0)
  match writeScalar e 4 cs.length out with
  | .error _ => out
  | .ok out1 => (writeOpaque cs out1).2

/-- `XDRReader::read(std::string&)` via `read(boost::shared_ptr<char>&)`
(src/xdr.hpp:128-149): read the word-sized length prefix `n` (failure → 0),
read `n` opaque bytes (0 from that read → 0), NUL-terminate and convert with
`std::string(char*)`, which keeps the bytes up to the first NUL. -/
def readString (e : Endian) (s : IStream) : Option (List Nat × IStream) :=
  match readScalar e 4 s with
  | .error _ => none
  | .ok (n, s1) =>
    let (i, bs, s2) := readOpaque n s1
    if i = 0 then none
    else some (bs.takeWhile (fun b => b != 0), s2)

end XDR

namespace Amber

/-- A Fortran format specification as parsed by `Amber::parseFormat`.
Modelled from the spec: `Amber::FormatSpec` itself is declared in
`amber.hpp`, which is not among the given sources; per the spec a
`FormatDescriptor` is `(repeat, type, width, optional precision)` with the
unparsed fields left caller-defined (modelled with defaults).  The C++
field `repeat` is named `rep` here (`repeat` is a Lean keyword). -/
structure FormatSpec where
  rep : Nat := 1
  type : Char := ' '
  width : Nat := 0
  precision : Nat := 0
deriving DecidableEq

/-- Error kinds thrown by `Amber::parseFormat` (both are `FileParseError` in
C++, distinguished by message; the spec's `FormatParseError` is
`cannotParse` and its `InvalidFormatTypeError` is `invalidType`, each
carrying the section name passed as `where`).  `missingToken` models the
undefined behaviour of dereferencing a past-the-end tokenizer iterator when
the line has no parenthesised part. -/
inductive FmtErr where
  | noFormatTag : String → FmtErr
  | missingToken : FmtErr
  | cannotParse : String → FmtErr
  | invalidType : String → FmtErr
deriving DecidableEq

/-- `istringstream >> (int)`: skip whitespace, read a digit run (the claims
exercise no sign characters, so signs are not modelled), fail on none. -/
def extractNat (cs : List Char) : Option (Nat × List Char) :=
  let cs1 := cs.dropWhile Char.isWhitespace
  let ds := cs1.takeWhile Char.isDigit
  if ds.isEmpty then none
  else some (ds.foldl (fun acc d => acc * 10 + (d.toNat - 48)) 0, cs1.drop ds.length)

/-- `istringstream >> (char)`: skip whitespace, take one character, fail at
end of input. -/
def extractChar (cs : List Char) : Option (Char × List Char) :=
  match cs.dropWhile Char.isWhitespace with
  | [] => none
  | c :: rest => some (c, rest)

/-- Grammar `n X w . d` — `iss >> fmt.repeat >> fmt.type >> fmt.width >>
period >> fmt.precision` (the period character is read but never checked). -/
def fmtNXWP (tok : List Char) : Option FormatSpec := do
  let (r, c1) ← extractNat tok
  let (t, c2) ← extractChar c1
  let (w, c3) ← extractNat c2
  let (_, c4) ← extractChar c3
  let (p, _) ← extractNat c4
  some { rep := r, type := t, width := w, precision := p }

/-- Grammar `n X w`. -/
def fmtNXW (tok : List Char) : Option FormatSpec := do
  let (r, c1) ← extractNat tok
  let (t, c2) ← extractChar c1
  let (w, _) ← extractNat c2
  some { rep := r, type := t, width := w }

/-- Grammar `X w`. -/
def fmtXW (tok : List Char) : Option FormatSpec := do
  let (t, c1) ← extractChar tok
  let (w, _) ← extractNat c1
  some { type := t, width := w }

/-- Grammar `X` alone. -/
def fmtX (tok : List Char) : Option FormatSpec := do
  let (t, _) ← extractChar tok
  some { type := t }

/-- The grammar cascade of `Amber::parseFormat` (amber.cpp:58-74): try
`nXw.d`, then (after `clear(); seekg(0)`) `nXw`, then `Xw`, then `X`,
committing to the first that succeeds. -/
def chooseGrammar (tok : List Char) : Option FormatSpec :=
  match fmtNXWP tok with
  | some f => some f
  | none =>
    match fmtNXW tok with
    | some f => some f
    | none =>
      match fmtXW tok with
      | some f => some f
      | none => fmtX tok

/-- `boost::tokenizer` with separator characters `(` and `)`: split on either
paren, dropping empty tokens. -/
def splitParens : List Char → List Char → List (List Char)
  | [], acc => if acc.isEmpty then [] else [acc.reverse]
  | c :: rest, acc =>
    if c = '(' ∨ c = ')' then
      if acc.isEmpty then splitParens rest [] else acc.reverse :: splitParens rest []
    else splitParens rest (c :: acc)

/-- `Amber::parseFormat` (amber.cpp:39-82) applied to the `%FORMAT` line it
just read: verify the `%FORMAT` tag, take the token between the parens, run
the grammar cascade (failing with the `Cannot parse format` error when all
four grammars fail), then check the parsed type character against the
caller's expected set (failing with the `Invalid format type` error naming
the section). -/
def parseFormat (expected : List Char) (sect : String) (line : String) : Except FmtErr FormatSpec :=
  if ¬ (line.toList.take 7 = "%FORMAT".toList) then .error (.noFormatTag sect)
  else
    match (splitParens line.toList [])[1]? with
    | none => .error .missingToken
    | some tok =>
      match chooseGrammar tok with
      | none => .error (.cannotParse sect)
      | some fmt =>
        if expected.contains fmt.type then .ok fmt
        else .error (.invalidType sect)

/-- One atom record of the molecular model.  Bonded neighbours are modelled
as a list of atom indices into the owning group (the C++ `pAtom` pointers,
made index-based); `addBond` appends, `isBoundTo` is membership.  Charges
and masses only pass through the parser, so their carrier is `Int`. -/
structure Atom where
  id : Nat := 0
  name : String := ""
  charge : Int := 0
  mass : Int := 0
  resid : Int := 0
  resname : String := ""
  bonds : List Nat := []
deriving DecidableEq

instance : Inhabited Atom := ⟨{}⟩

/-- The mutable state of an `Amber` object during parsing. -/
structure AmberState where
  atoms : List Atom := []
  natoms : Nat := 0
  nbonh : Nat := 0
  mbona : Nat := 0
  nres : Nat := 0
  residue_labels : List String := []
  residue_pointers : List Nat := []
  title : String := ""
deriving DecidableEq

instance : Inhabited AmberState := ⟨{}⟩

/-- Errors of the Amber parser: `FileParseError` carrying the section named
in the message (the spec's `SectionSizeMismatchError` corresponds to the
size-check throws), the `std::logic_error` of `parsePointers`, plus the two
failure modes of `assignResidues`: its `std::runtime_error` size check and
an out-of-bounds access (undefined behaviour in C++, an explicit error
branch here). -/
inductive AmberErr where
  | fileParse : String → AmberErr
  | logicError : AmberErr
  | sizeCheck : AmberErr
  | outOfBounds : AmberErr
deriving DecidableEq

/-- Update the element at an index, leaving the list unchanged when the index
is out of range. -/
def listModify (f : α → α) : Nat → List α → List α
  | _, [] => []
  | 0, x :: xs => f x :: xs
  | n + 1, x :: xs => x :: listModify f n xs

/-- Count the occurrences of a value in a list. -/
def countOcc (x : Nat) : List Nat → Nat
  | [] => 0
  | y :: ys => (if y = x then 1 else 0) + countOcc x ys

/-- `aatom->isBoundTo(batom)`: is atom `j` among atom `i`'s neighbours. -/
def isBoundTo (ats : List Atom) (i j : Nat) : Bool :=
  decide (j ∈ (ats.getD i default).bonds)

/-- `aatom->addBond(batom)`: append `j` to atom `i`'s neighbour list. -/
def addBond (i j : Nat) (ats : List Atom) : List Atom :=
  listModify (fun a => { a with bonds := a.bonds ++ [j] }) i ats

/-- The symmetric guarded insertion shared by both bond decoders
(amber.cpp:176-179 and 259-262): add each direction only when not already
present. -/
def addBondPair (i j : Nat) (ats : List Atom) : List Atom :=
  let ats1 := if isBoundTo ats i j then ats else addBond i j ats
  if isBoundTo ats1 j i then ats1 else addBond j i ats1

/-- The triplet loop of `Amber::parseBonds` (amber.cpp:168-181): skip a
triplet whose two atom indices are equal, otherwise resolve each stored
index `k` to the atom at position `k / 3` and insert the edge symmetrically.
The third element of each triplet is ignored.  Stored indices are
non-negative in any valid parmtop and are modelled as `Nat`. -/
def bondLoop : List Nat → List Atom → List Atom
  | a :: b :: _ :: rest, ats =>
    bondLoop rest (if a = b then ats else addBondPair (a / 3) (b / 3) ats)
  | _, ats => ats

/-- The triplet loop of `Amber::parseAmoebaRegularBondList`
(amber.cpp:249-264): identical to `bondLoop` except that a stored index `k`
resolves to the atom at position `k - 1` (plain 1-based indices). -/
def amoebaBondLoop : List Nat → List Atom → List Atom
  | a :: b :: _ :: rest, ats =>
    amoebaBondLoop rest (if a = b then ats else addBondPair (a - 1) (b - 1) ats)
  | _, ats => ats

/-- Stamp a name onto each atom in order (the loop of `parseAtomNames`). -/
def setNames : List Atom → List String → List Atom
  | a :: as, n :: ns => { a with name := n } :: setNames as ns
  | as, [] => as
  | [], _ => []

/-- Stamp a charge onto each atom in order (the loop of `parseCharges`). -/
def setCharges : List Atom → List Int → List Atom
  | a :: as, c :: cs => { a with charge := c } :: setCharges as cs
  | as, [] => as
  | [], _ => []

/-- Stamp a mass onto each atom in order (the loop of `parseMasses`). -/
def setMasses : List Atom → List Int → List Atom
  | a :: as, m :: ms => { a with mass := m } :: setMasses as ms
  | as, [] => as
  | [], _ => []

/-- A handler result: the state at return/throw time plus the error thrown,
if any (C++ exceptions leave the object in its state at the throw point). -/
def HResult := AmberState × Option AmberErr

/-- `Amber::parseAtomNames` (amber.cpp:219-227), applied to the decoded name
block: the element count must equal `natoms` or the handler throws before
writing any attribute. -/
def parseAtomNames (names : List String) (st : AmberState) : HResult :=
  if names.length ≠ st.natoms then (st, some (.fileParse "atom names"))
  else ({ st with atoms := setNames st.atoms names }, none)

/-- `Amber::parseCharges` (amber.cpp:85-94), applied to the decoded charge
block: the element count must equal the atom count or the handler throws
before writing any attribute. -/
def parseCharges (charges : List Int) (st : AmberState) : HResult :=
  if charges.length ≠ st.atoms.length then (st, some (.fileParse "charges"))
  else ({ st with atoms := setCharges st.atoms charges }, none)

/-- `Amber::parseMasses` (amber.cpp:97-107). -/
def parseMasses (masses : List Int) (st : AmberState) : HResult :=
  if masses.length ≠ st.atoms.length then (st, some (.fileParse "masses"))
  else ({ st with atoms := setMasses st.atoms masses }, none)

/-- `Amber::parseResidueLabels` (amber.cpp:111-118). -/
def parseResidueLabels (labels : List String) (st : AmberState) : HResult :=
  if labels.length ≠ st.nres then (st, some (.fileParse "residue labels"))
  else ({ st with residue_labels := labels }, none)

/-- `Amber::parseResiduePointers` (amber.cpp:121-127). -/
def parseResiduePointers (ptrs : List Nat) (st : AmberState) : HResult :=
  if ptrs.length ≠ st.nres then (st, some (.fileParse "residue pointers"))
  else ({ st with residue_pointers := ptrs }, none)

/-- `Amber::parseTitle` (amber.cpp:210-216). -/
def parseTitle (titles : List String) (st : AmberState) : HResult :=
  ({ st with title := titles.foldl (fun acc t => acc ++ t) st.title }, none)

/-- `Amber::parseBonds` (amber.cpp:159-183), applied to the decoded integer
block for a section declaring `n` bonds. -/
def parseBonds (n : Nat) (bond_list : List Nat) (st : AmberState) : HResult :=
  if bond_list.length ≠ 3 * n then (st, some (.fileParse "bonds"))
  else ({ st with atoms := bondLoop bond_list st.atoms }, none)

/-- `Amber::parseAmoebaRegularBondList` (amber.cpp:240-266). -/
def parseAmoebaRegularBondList (n : Nat) (bond_list : List Nat) (st : AmberState) : HResult :=
  if bond_list.length ≠ 3 * n then (st, some (.fileParse "amoeba bonds"))
  else ({ st with atoms := amoebaBondLoop bond_list st.atoms }, none)

/-- The fresh atom records built by `parsePointers`: atom `i` (0-based) gets
id `i + 1`. -/
def mkAtoms (n : Nat) : List Atom :=
  (List.range n).map (fun i => { id := i + 1 })

/-- `Amber::parsePointers` (amber.cpp:186-206), applied to the decoded
pointer block: record the counts (positions 0, 2, 3, 11), then throw a
`std::logic_error` if the atom group is already non-empty, else append
`natoms` fresh atoms with 1-based ids. -/
def parsePointers (ptrs : List Nat) (st : AmberState) : HResult :=
  let st1 := { st with
    natoms := ptrs.getD 0 0
    nbonh := ptrs.getD 2 0
    mbona := ptrs.getD 3 0
    nres := ptrs.getD 11 0 }
  if st1.atoms.length ≠ 0 then (st1, some .logicError)
  else ({ st1 with atoms := mkAtoms st1.natoms }, none)

/-- `2^32`, the modulus of the C++ `uint` arithmetic in `assignResidues`. -/
def u32 : Nat := 4294967296

/-- `uint` decrement: `n - 1` with 32-bit wraparound (underflows to
`2^32 - 1` when `n = 0`). -/
def usub1 (n : Nat) : Nat :=
  (n + (u32 - 1)) % u32

/-- Stamp residue id/name onto the atoms at indices `start`, `start+1`, …,
`start+k-1`, erroring on an out-of-range index (an out-of-bounds
`atoms[...]` access, undefined behaviour in C++). -/
def stampSeq (rid : Int) (rname : String) : Nat → Nat → List Atom → Option (List Atom)
  | _, 0, ats => some ats
  | start, k + 1, ats =>
    if start < ats.length then
      stampSeq rid rname (start + 1) k
        (listModify (fun a => { a with resid := rid, resname := rname }) start ats)
    else none

/-- The residue walk of `Amber::assignResidues` (amber.cpp:138-153): `count`
remaining iterations of the first loop starting at residue index `i`; when
the count is exhausted, the fix-the-end step stamps the final residue over
every atom from `residue_pointers[i] - 1` (uint) to `natoms - 1`.  Each
array subscript is `Option`-returning: `none` models the out-of-bounds
accesses that are undefined behaviour in C++. -/
def residueLoop (labels : List String) (ptrs : List Nat) (natoms : Nat) :
    Nat → Nat → List Atom → Option (List Atom)
  | 0, i, ats => do
    let lbl ← labels[i]?
    let p ← ptrs[i]?
    stampSeq ((i : Int) + 1) lbl (usub1 p) (natoms - usub1 p) ats
  | c + 1, i, ats => do
    let lbl ← labels[i]?
    let p ← ptrs[i]?
    let p' ← ptrs[i + 1]?
    let ats' ← stampSeq ((i : Int) + 1) lbl (usub1 p) (p' - p) ats
    residueLoop labels ptrs natoms c (i + 1) ats'

/-- `Amber::assignResidues` (amber.cpp:130-154): check both residue arrays
have exactly `nres` entries (else `std::runtime_error`), then walk residues
`0 .. nres-2` stamping each atom in `[pointer[i], pointer[i+1])` (1-based,
via the `uint` subscript `j - 1`) with residue id `i + 1` and label `i`, and
give the last residue every atom from `pointer[nres-1] - 1` through
`natoms - 1`.  The loop bound `nres - 1` is `uint` arithmetic and underflows
when `nres = 0`. -/
def assignResidues (st : AmberState) : Except AmberErr AmberState :=
  if st.residue_pointers.length = st.nres ∧ st.residue_labels.length = st.nres then
    match residueLoop st.residue_labels st.residue_pointers st.natoms
        (usub1 st.nres) 0 st.atoms with
    | some ats => .ok { st with atoms := ats }
    | none => .error .outOfBounds
  else .error .sizeCheck

/-- Project the residue id of 0-based atom `i` out of an `assignResidues`
result (`-1` when the call failed or the index is out of range). -/
def residOf (r : Except AmberErr AmberState) (i : Nat) : Int :=
  match r with
  | .ok s => (s.atoms.getD i default).resid
  | .error _ => -1

/-- The concrete model of the residue-assignment scenario: 10 atoms, 3
residue labels, residue pointers `[1, 5, 9]` (1-based). -/
def c1State : AmberState :=
  { atoms := mkAtoms 10
    natoms := 10
    nres := 3
    residue_labels := ["AAA", "BBB", "CCC"]
    residue_pointers := [1, 5, 9] }

/-- A two-atom group with no bonds, for exercising the bond decoders. -/
def twoAtoms : List Atom := [{}, {}]

end Amber

lemma leBytes_four (v : Nat) :
    XDR.leBytes 4 v = [v % 256, v / 256 % 256, v / 256 / 256 % 256, v / 256 / 256 / 256 % 256] :=
  rfl

lemma leBytes_length : ∀ (w v : Nat), (XDR.leBytes w v).length = w
  | 0, _ => rfl
  | w + 1, v => by simp [XDR.leBytes, leBytes_length w]

lemma loadLE_four (a b c d : Nat) :
    XDR.loadLE [a, b, c, d] = a + 256 * (b + 256 * (c + 256 * d)) := by
  simp [XDR.loadLE]

lemma swabVal_four (v : Nat) :
    XDR.swabVal 4 v
      = v / 256 / 256 / 256 % 256
        + 256 * (v / 256 / 256 % 256 + 256 * (v / 256 % 256 + 256 * (v % 256))) := by
  rw [XDR.swabVal, leBytes_four]
  simp [XDR.loadLE]

lemma loadLE_leBytes_four (v : Nat) (hv : v < 2 ^ 32) :
    XDR.loadLE (XDR.leBytes 4 v) = v := by
  rw [leBytes_four, loadLE_four]
  omega

lemma swabVal_four_of_bytes (b0 b1 b2 b3 : Nat)
    (h0 : b0 < 256) (h1 : b1 < 256) (h2 : b2 < 256) (h3 : b3 < 256) :
    XDR.swabVal 4 (b0 + 256 * (b1 + 256 * (b2 + 256 * b3)))
      = b3 + 256 * (b2 + 256 * (b1 + 256 * b0)) := by
  rw [swabVal_four]
  omega

lemma swabVal_swabVal_four (v : Nat) (hv : v < 2 ^ 32) :
    XDR.swabVal 4 (XDR.swabVal 4 v) = v := by
  have hinner : XDR.swabVal 4 v
      = v / 256 / 256 / 256 % 256
        + 256 * (v / 256 / 256 % 256 + 256 * (v / 256 % 256 + 256 * (v % 256))) :=
    swabVal_four v
  rw [hinner,
    swabVal_four_of_bytes _ _ _ _ (by omega) (by omega) (by omega) (by omega)]
  omega

lemma wireWord_four (e : XDR.Endian) (v : Nat) :
    XDR.wireWord e 4 v = (XDR.leBytes 4 v).reverse := by
  cases e <;> simp [XDR.wireWord, XDR.storeBytes, XDR.needToSwab]

lemma isRead_prefix (n : Nat) (data tail : List Nat) (h : data.length = n) :
    XDR.isRead ⟨data ++ tail, false⟩ n = (data, ⟨tail, false⟩) := by
  subst h
  simp [XDR.isRead]

lemma readScalar_wireWord (e : XDR.Endian) (v : Nat) (tail : List Nat) (hv : v < 2 ^ 32) :
    XDR.readScalar e 4 ⟨XDR.wireWord e 4 v ++ tail, false⟩ = .ok (v, ⟨tail, false⟩) := by
  have hlen : (XDR.wireWord e 4 v).length = 4 := by
    rw [wireWord_four]
    simp [leBytes_length]
  have htake : (XDR.wireWord e 4 v).take 4 = XDR.wireWord e 4 v :=
    List.take_of_length_le (by omega)
  cases e with
  | big =>
    simp only [XDR.readScalar, isRead_prefix 4 _ tail hlen, htake]
    simp [XDR.loadBytes, XDR.needToSwab, wireWord_four, List.reverse_reverse,
      loadLE_leBytes_four v hv]
  | little =>
    simp only [XDR.readScalar, isRead_prefix 4 _ tail hlen, htake]
    simp only [XDR.loadBytes, XDR.needToSwab, wireWord_four]
    have hsw : XDR.loadLE (XDR.leBytes 4 v).reverse = XDR.swabVal 4 v := rfl
    simp [hsw, swabVal_swabVal_four v hv]

/-- C2 (corrected).  The claim asserts the write/read round-trip for every
scalar type of storage size at most the 4-byte word, on both a
non-swapping (big-endian) and a swapping (little-endian) host.  This fails
for a 2-byte type on the swapping host (see
`scalar_roundtrip_u16_little_cex`): `XDRReader::read<T>` reads a whole
4-byte block into the `sizeof(T)`-byte object `result`, so for `w < 4` the
value bytes that `XDRWriter::write` placed at the far end of the swabbed
word never reach `result`.  Amended claim: the round-trip holds for scalars
of exactly the word size (4 bytes) and for single-byte scalars, on both
hosts. -/
theorem scalar_roundtrip_word_and_byte (e : XDR.Endian) (v v1 : Nat)
    (hv : v < 2 ^ 32) (hv1 : v1 < 2 ^ 8) :
    XDR.roundTrip e 4 v = .ok v ∧ XDR.roundTrip e 1 v1 = .ok v1 := by
  constructor
  · have h := readScalar_wireWord e v [] hv
    simp only [List.append_nil] at h
    simp [XDR.roundTrip, XDR.writeScalar, h]
  · have hv1' : v1 < 256 := by omega
    cases e <;>
      simp [XDR.roundTrip, XDR.writeScalar, XDR.readScalar, XDR.wireWord,
        XDR.storeBytes, XDR.needToSwab, XDR.leBytes, XDR.isRead, XDR.loadBytes,
        XDR.loadLE, Nat.mod_eq_of_lt hv1']

/-- Witness for `scalar_roundtrip_word_and_byte` at concrete inputs. -/
theorem scalar_roundtrip_word_and_byte_witness :
    XDR.roundTrip .little 4 305419896 = .ok 305419896 ∧
    XDR.roundTrip .big 1 171 = .ok 171 :=
  ⟨(scalar_roundtrip_word_and_byte .little 305419896 171 (by norm_num) (by norm_num)).1,
   (scalar_roundtrip_word_and_byte .big 305419896 171 (by norm_num) (by norm_num)).2⟩

/-- C2 counterexample: a 2-byte scalar does not survive the round-trip on a
little-endian (swapping) host — writing the value 1 reads back as 0. -/
theorem scalar_roundtrip_u16_little_cex :
    XDR.roundTrip .little 2 1 = .ok 0 ∧ XDR.roundTrip .little 2 1 ≠ .ok 1 := by
  constructor <;> decide

lemma padOf_lt_four (n : Nat) : XDR.padOf n < 4 := by
  rw [XDR.padOf]
  split <;> omega

lemma readOpaque_calc (n : Nat) (s : XDR.IStream) (hn : 1 ≤ n) (hf : s.fail = false)
    (hlen : n + XDR.padOf n ≤ s.data.length) :
    XDR.readOpaque n s = (n, s.data.take n, ⟨s.data.drop (n + XDR.padOf n), false⟩) := by
  obtain ⟨data, fail⟩ := s
  simp only at hf hlen
  subst hf
  have hn' : n ≤ data.length := by omega
  have h1 : XDR.isRead ⟨data, false⟩ n = (data.take n, ⟨data.drop n, false⟩) := by
    simp [XDR.isRead, hn']
  rw [XDR.readOpaque]
  simp only [h1, if_neg (by omega : ¬ n = 0)]
  by_cases hp : XDR.padOf n = 0
  · simp [hp]
  · have h2 : XDR.isRead ⟨data.drop n, false⟩ (XDR.padOf n)
        = ((data.drop n).take (XDR.padOf n), ⟨(data.drop n).drop (XDR.padOf n), false⟩) := by
      simp only [XDR.isRead]
      rw [if_neg (by simp), if_pos (by simp; omega)]
    simp only [hp, h2, if_neg hp]
    simp [List.drop_drop, Nat.add_comm]

/-- C3 (corrected).  `writeOpaque` of `n` bytes always advances the output by
exactly `n + pad` zero-padded bytes with `pad = (4 − n mod 4) mod 4 ∈
{0,1,2,3}`, and `readOpaque` of `n ≥ 1` consumes exactly `n + pad` input
bytes, returning 0 on a short read and `n` otherwise.  The claim's clause
"returns n otherwise" fails at `n = 0`: the code returns 1 (a generic
success marker) without touching the stream — see `readOpaque_zero_cex`.
Amended claim: for `n = 0`, `readOpaque` consumes nothing and returns 1. -/
theorem opaque_padding_invariant :
    (∀ data out : List Nat,
        (XDR.writeOpaque data out).2
            = out ++ data ++ List.replicate (XDR.padOf data.length) 0 ∧
        (XDR.writeOpaque data out).2.length
            = out.length + data.length + XDR.padOf data.length) ∧
    (∀ n : Nat, XDR.padOf n < 4) ∧
    (∀ (n : Nat) (s : XDR.IStream), 1 ≤ n → s.fail = false →
        n + XDR.padOf n ≤ s.data.length →
        XDR.readOpaque n s = (n, s.data.take n, ⟨s.data.drop (n + XDR.padOf n), false⟩)) ∧
    (∀ (n : Nat) (s : XDR.IStream), s.fail = false → s.data.length < n →
        (XDR.readOpaque n s).1 = 0) ∧
    (∀ s : XDR.IStream, XDR.readOpaque 0 s = (1, [], s)) := by
  refine ⟨?_, padOf_lt_four, readOpaque_calc, ?_, ?_⟩
  · intro data out
    constructor
    · simp [XDR.writeOpaque, List.append_assoc]
    · simp [XDR.writeOpaque]
      omega
  · intro n s hf hshort
    obtain ⟨data, fail⟩ := s
    simp only at hf hshort
    subst hf
    have h1 : XDR.isRead ⟨data, false⟩ n = (data, ⟨[], true⟩) := by
      simp [XDR.isRead]
      omega
    rw [XDR.readOpaque]
    simp [h1, if_neg (by omega : ¬ n = 0)]
  · intro s
    simp [XDR.readOpaque]

/-- Witness for `opaque_padding_invariant`: reading 5 opaque bytes from a
9-byte stream returns 5 and consumes 8 = 5 + 3 bytes. -/
theorem opaque_padding_invariant_witness :
    XDR.readOpaque 5 ⟨[1, 2, 3, 4, 5, 6, 7, 8, 9], false⟩
      = (5, [1, 2, 3, 4, 5], ⟨[9], false⟩) := by
  have h := opaque_padding_invariant.2.2.1 5 ⟨[1, 2, 3, 4, 5, 6, 7, 8, 9], false⟩
    (by norm_num) rfl (by decide)
  rw [h]
  decide

/-- C3 counterexample: `readOpaque` of 0 bytes returns 1 (the generic
success marker), not 0 as the claim's "returns n otherwise" demands. -/
theorem readOpaque_zero_cex :
    XDR.readOpaque 0 ⟨[], false⟩ = (1, [], ⟨[], false⟩) ∧
    (XDR.readOpaque 0 ⟨[], false⟩).1 ≠ 0 := by
  constructor <;> decide

lemma takeWhile_ne_zero : ∀ (s : List Nat), 0 ∉ s → s.takeWhile (fun b => b != 0) = s
  | [], _ => rfl
  | a :: s, h => by
    have ha : a ≠ 0 := fun hc => h (by simp [hc])
    have hs : 0 ∉ s := fun hc => h (List.mem_cons_of_mem _ hc)
    simp [List.takeWhile_cons, ha, takeWhile_ne_zero s hs]

lemma writeString_eq (e : XDR.Endian) (s : List Nat) (h0 : 0 ∉ s) :
    XDR.writeString e s []
      = XDR.wireWord e 4 s.length ++ (s ++ List.replicate (XDR.padOf s.length) 0) := by
  simp [XDR.writeString, takeWhile_ne_zero s h0, XDR.writeScalar, XDR.writeOpaque,
    List.append_assoc]

/-- C8 (corrected).  `writeString` uses `strlen`, so a string containing an
embedded NUL byte is truncated at that NUL on the wire and does not survive
the round-trip (see `string_roundtrip_nul_cex`); the amended claim restricts
the round-trip to NUL-free strings (of length below `2^32`, the word-sized
length prefix).  The failure condition is as claimed: `readString` fails
exactly when the length-prefix read fails or the opaque read returns fewer
bytes than the prefix requested (i.e. returns 0). -/
theorem string_roundtrip_and_failure :
    (∀ (e : XDR.Endian) (s : List Nat), 0 ∉ s → s.length < 2 ^ 32 →
        XDR.readString e ⟨XDR.writeString e s [], false⟩ = some (s, ⟨[], false⟩)) ∧
    (∀ (e : XDR.Endian) (st : XDR.IStream),
        XDR.readString e st = none ↔
          (∃ err, XDR.readScalar e 4 st = .error err) ∨
          ∃ n s1, XDR.readScalar e 4 st = .ok (n, s1) ∧ (XDR.readOpaque n s1).1 = 0) := by
  constructor
  · intro e s h0 hlen
    rw [writeString_eq e s h0]
    have hrs := readScalar_wireWord e s.length
      (s ++ List.replicate (XDR.padOf s.length) 0) hlen
    by_cases hnil : s = []
    · subst hnil
      have hrs' : XDR.readScalar e 4 ⟨XDR.wireWord e 4 0, false⟩ = .ok (0, ⟨[], false⟩) := by
        simpa [XDR.padOf] using hrs
      simp [XDR.readString, hrs', XDR.readOpaque, XDR.padOf]
    · have hn : 1 ≤ s.length := List.length_pos.mpr hnil
      have hro := readOpaque_calc s.length
        ⟨s ++ List.replicate (XDR.padOf s.length) 0, false⟩ hn rfl (by simp)
      have htake : (s ++ List.replicate (XDR.padOf s.length) 0).take s.length = s :=
        List.take_left s _
      have hdrop : (s ++ List.replicate (XDR.padOf s.length) 0).drop
          (s.length + XDR.padOf s.length) = [] :=
        List.drop_eq_nil_of_le (by simp)
      simp only [htake, hdrop] at hro
      simp only [XDR.readString, hrs, hro]
      simp [List.length_eq_zero, hnil, takeWhile_ne_zero s h0]
  · intro e st
    rcases hrs : XDR.readScalar e 4 st with err | ⟨n, s1⟩
    · simp only [XDR.readString, hrs]
      exact iff_of_true trivial (Or.inl ⟨err, rfl⟩)
    · have hRS : XDR.readString e st
          = if (XDR.readOpaque n s1).1 = 0 then none
            else some (((XDR.readOpaque n s1).2.1).takeWhile (fun b => b != 0),
              (XDR.readOpaque n s1).2.2) := by
        simp only [XDR.readString, hrs]
      by_cases hi : (XDR.readOpaque n s1).1 = 0
      · rw [hRS, if_pos hi]
        exact iff_of_true rfl (Or.inr ⟨n, s1, rfl, hi⟩)
      · rw [hRS, if_neg hi]
        constructor
        · intro hc
          exact absurd hc (by simp)
        · rintro (⟨err, herr⟩ | ⟨n', s1', hok, h0⟩)
          · simp [hrs] at herr
          · injection hok with hpair
            injection hpair with h1 h2
            subst h1
            subst h2
            exact absurd h0 hi

/-- Witness for `string_roundtrip_and_failure` on a concrete NUL-free
string. -/
theorem string_roundtrip_witness :
    XDR.readString .big ⟨XDR.writeString .big [72, 105] [], false⟩
      = some ([72, 105], ⟨[], false⟩) :=
  string_roundtrip_and_failure.1 .big [72, 105] (by decide) (by decide)

/-- C8 counterexample: the byte string `[65, 0, 66]` (an embedded NUL)
round-trips to `[65]`, not to itself. -/
theorem string_roundtrip_nul_cex :
    XDR.readString .big ⟨XDR.writeString .big [65, 0, 66] [], false⟩
      = some ([65], ⟨[], false⟩) ∧
    ¬ ([65] = ([65, 0, 66] : List Nat)) := by
  constructor <;> decide

/-- C4 (confirmed): `parseFormat` tries the grammars `repeat type width .
precision`, `repeat type width`, `type width`, `type` in that order and
commits to the first that parses (conjuncts 5–8); `"(20I8)"` gives
`repeat=20, type='I', width=8`; `"(5E16.8)"` gives `repeat=5, type='E',
width=16, precision=8`; a type character outside the caller's expected set
fails with the invalid-format-type error naming the section; a line whose
parenthesised part matches no grammar fails with the
cannot-parse-format error. -/
theorem parseFormat_grammars :
    Amber.parseFormat ['I'] "pointers" "%FORMAT(20I8)"
      = .ok { rep := 20, type := 'I', width := 8 } ∧
    Amber.parseFormat ['E', 'F', 'G'] "charges" "%FORMAT(5E16.8)"
      = .ok { rep := 5, type := 'E', width := 16, precision := 8 } ∧
    Amber.parseFormat ['E', 'F', 'G'] "charges" "%FORMAT(20I8)"
      = .error (.invalidType "charges") ∧
    Amber.parseFormat ['I'] "pointers" "%FORMAT(   )"
      = .error (.cannotParse "pointers") ∧
    (∀ (tok : List Char) (f : Amber.FormatSpec),
        Amber.fmtNXWP tok = some f → Amber.chooseGrammar tok = some f) ∧
    (∀ (tok : List Char) (f : Amber.FormatSpec), Amber.fmtNXWP tok = none →
        Amber.fmtNXW tok = some f → Amber.chooseGrammar tok = some f) ∧
    (∀ (tok : List Char) (f : Amber.FormatSpec), Amber.fmtNXWP tok = none →
        Amber.fmtNXW tok = none → Amber.fmtXW tok = some f →
        Amber.chooseGrammar tok = some f) ∧
    (∀ tok : List Char, Amber.fmtNXWP tok = none → Amber.fmtNXW tok = none →
        Amber.fmtXW tok = none → Amber.chooseGrammar tok = Amber.fmtX tok) := by
  refine ⟨by decide, by decide, by decide, by decide, ?_, ?_, ?_, ?_⟩
  · intro tok f h
    simp [Amber.chooseGrammar, h]
  · intro tok f h1 h2
    simp [Amber.chooseGrammar, h1, h2]
  · intro tok f h1 h2 h3
    simp [Amber.chooseGrammar, h1, h2, h3]
  · intro tok h1 h2 h3
    simp [Amber.chooseGrammar, h1, h2, h3]

/-- Witness for `parseFormat_grammars`: the first grammar succeeds on
`5E16.8` and the cascade commits to it. -/
theorem parseFormat_grammars_witness :
    Amber.chooseGrammar "5E16.8".toList
      = some { rep := 5, type := 'E', width := 16, precision := 8 } :=
  parseFormat_grammars.2.2.2.2.1 "5E16.8".toList
    { rep := 5, type := 'E', width := 16, precision := 8 } (by decide)

lemma listModify_length (f : α → α) : ∀ (n : Nat) (l : List α),
    (Amber.listModify f n l).length = l.length
  | n, [] => by cases n <;> rfl
  | 0, _ :: _ => rfl
  | n + 1, x :: xs => by simp [Amber.listModify, listModify_length f n xs]

lemma getD_listModify_ne (f : α → α) [Inhabited α] : ∀ (i j : Nat) (l : List α), i ≠ j →
    (Amber.listModify f i l).getD j default = l.getD j default
  | i, _, [], _ => by cases i <;> rfl
  | 0, 0, _ :: _, h => absurd rfl h
  | 0, k + 1, x :: xs, _ => by simp [Amber.listModify]
  | _ + 1, 0, x :: xs, _ => by simp [Amber.listModify]
  | i + 1, k + 1, x :: xs, h => by
    simp only [Amber.listModify, List.getD_cons_succ]
    exact getD_listModify_ne f i k xs (by omega)

lemma getD_listModify_self (f : α → α) [Inhabited α] : ∀ (i : Nat) (l : List α), i < l.length →
    (Amber.listModify f i l).getD i default = f (l.getD i default)
  | _, [], h => by simp at h
  | 0, x :: xs, _ => by simp [Amber.listModify]
  | i + 1, x :: xs, h => by
    simp only [Amber.listModify, List.getD_cons_succ]
    exact getD_listModify_self f i xs (by simpa using h)

lemma countOcc_append (x : Nat) : ∀ (l1 l2 : List Nat),
    Amber.countOcc x (l1 ++ l2) = Amber.countOcc x l1 + Amber.countOcc x l2
  | [], l2 => by simp [Amber.countOcc]
  | y :: l1, l2 => by
    have e1 : Amber.countOcc x ((y :: l1) ++ l2)
        = (if y = x then 1 else 0) + Amber.countOcc x (l1 ++ l2) := rfl
    have e2 : Amber.countOcc x (y :: l1)
        = (if y = x then 1 else 0) + Amber.countOcc x l1 := rfl
    rw [e1, e2, countOcc_append x l1 l2]
    omega

lemma countOcc_eq_zero_of_not_mem (x : Nat) : ∀ (l : List Nat), x ∉ l → Amber.countOcc x l = 0
  | [], _ => rfl
  | y :: l, h => by
    have hy : y ≠ x := fun hc => h (by simp [hc])
    have hl : x ∉ l := fun hc => h (List.mem_cons_of_mem _ hc)
    simp [Amber.countOcc, hy, countOcc_eq_zero_of_not_mem x l hl]

lemma addBond_length (i j : Nat) (ats : List Amber.Atom) :
    (Amber.addBond i j ats).length = ats.length := by
  simp [Amber.addBond, listModify_length]

lemma addBondPair_fresh (ats : List Amber.Atom) (i j : Nat) (hij : i ≠ j)
    (hi : i < ats.length) (hj : j < ats.length)
    (hf1 : j ∉ (ats.getD i default).bonds) (hf2 : i ∉ (ats.getD j default).bonds) :
    ((Amber.addBondPair i j ats).getD i default).bonds = (ats.getD i default).bonds ++ [j] ∧
    ((Amber.addBondPair i j ats).getD j default).bonds = (ats.getD j default).bonds ++ [i] := by
  have hb1 : Amber.isBoundTo ats i j = false := by
    simp only [Amber.isBoundTo]
    exact decide_eq_false hf1
  have hgi : ((Amber.addBond i j ats).getD i default).bonds
      = (ats.getD i default).bonds ++ [j] := by
    rw [Amber.addBond, getD_listModify_self _ i ats hi]
  have hgj : (Amber.addBond i j ats).getD j default = ats.getD j default :=
    getD_listModify_ne _ i j ats hij
  have hb2 : Amber.isBoundTo (Amber.addBond i j ats) j i = false := by
    simp only [Amber.isBoundTo]
    rw [hgj]
    exact decide_eq_false hf2
  have hres : Amber.addBondPair i j ats = Amber.addBond j i (Amber.addBond i j ats) := by
    simp [Amber.addBondPair, hb1, hb2]
  have hj' : j < (Amber.addBond i j ats).length := by
    rw [addBond_length]
    exact hj
  constructor
  · rw [hres,
      show (Amber.addBond j i (Amber.addBond i j ats)).getD i default
          = (Amber.addBond i j ats).getD i default from
        getD_listModify_ne _ j i _ (Ne.symm hij)]
    exact hgi
  · rw [hres, Amber.addBond, getD_listModify_self _ j _ hj', hgj]

/-- C5 (confirmed): a degenerate triplet (equal atom indices) adds no edge;
a non-degenerate triplet records the edge symmetrically in both endpoints'
neighbour lists, and decoding the same triplet a second time leaves exactly
one neighbour entry on each side. -/
theorem bond_symmetry_idempotence (ats : List Amber.Atom) (a b x : Nat)
    (hab : a ≠ b) (hij : a / 3 ≠ b / 3)
    (hi : a / 3 < ats.length) (hj : b / 3 < ats.length)
    (hf1 : b / 3 ∉ (ats.getD (a / 3) default).bonds)
    (hf2 : a / 3 ∉ (ats.getD (b / 3) default).bonds) :
    (∀ c y : Nat, Amber.bondLoop [c, c, y] ats = ats) ∧
    Amber.countOcc (b / 3)
        ((Amber.bondLoop [a, b, x]
          (Amber.bondLoop [a, b, x] ats)).getD (a / 3) default).bonds = 1 ∧
    Amber.countOcc (a / 3)
        ((Amber.bondLoop [a, b, x]
          (Amber.bondLoop [a, b, x] ats)).getD (b / 3) default).bonds = 1 := by
  have hone : Amber.bondLoop [a, b, x] ats = Amber.addBondPair (a / 3) (b / 3) ats := by
    simp [Amber.bondLoop, hab]
  obtain ⟨hbi, hbj⟩ := addBondPair_fresh ats (a / 3) (b / 3) hij hi hj hf1 hf2
  have hb1' : Amber.isBoundTo (Amber.addBondPair (a / 3) (b / 3) ats) (a / 3) (b / 3) = true := by
    simp only [Amber.isBoundTo]
    rw [hbi]
    exact decide_eq_true (by simp)
  have hb2' : Amber.isBoundTo (Amber.addBondPair (a / 3) (b / 3) ats) (b / 3) (a / 3) = true := by
    simp only [Amber.isBoundTo]
    rw [hbj]
    exact decide_eq_true (by simp)
  have halready : ∀ (ats' : List Amber.Atom), Amber.isBoundTo ats' (a / 3) (b / 3) = true →
      Amber.isBoundTo ats' (b / 3) (a / 3) = true →
      Amber.addBondPair (a / 3) (b / 3) ats' = ats' := by
    intro ats' h1 h2
    simp [Amber.addBondPair, h1, h2]
  have htwice : Amber.bondLoop [a, b, x] (Amber.bondLoop [a, b, x] ats)
      = Amber.addBondPair (a / 3) (b / 3) ats := by
    rw [hone]
    rw [show Amber.bondLoop [a, b, x] (Amber.addBondPair (a / 3) (b / 3) ats)
        = Amber.addBondPair (a / 3) (b / 3) (Amber.addBondPair (a / 3) (b / 3) ats) from by
      simp [Amber.bondLoop, hab]]
    exact halready _ hb1' hb2'
  refine ⟨fun c y => by simp [Amber.bondLoop], ?_, ?_⟩
  · rw [htwice, hbi, countOcc_append, countOcc_eq_zero_of_not_mem _ _ hf1]
    simp [Amber.countOcc]
  · rw [htwice, hbj, countOcc_append, countOcc_eq_zero_of_not_mem _ _ hf2]
    simp [Amber.countOcc]

/-- Witness for `bond_symmetry_idempotence`: decoding the triplet `(0, 3, 7)`
twice on a fresh two-atom group leaves one neighbour entry on atom 0. -/
theorem bond_symmetry_idempotence_witness :
    Amber.countOcc 1 ((Amber.bondLoop [0, 3, 7]
        (Amber.bondLoop [0, 3, 7] Amber.twoAtoms)).getD 0 default).bonds = 1 :=
  (bond_symmetry_idempotence Amber.twoAtoms 0 3 7 (by decide) (by decide)
    (by decide) (by decide) (by decide) (by decide)).2.1

/-- C6 (confirmed): the primary bond decoder resolves a stored index `k` to
the atom at position `k / 3`, the AMOEBA extension decoder resolves it to
position `k - 1`, and both ignore the third element of each triplet. -/
theorem bond_index_conventions (a b x : Nat) (r : List Nat) (ats : List Amber.Atom) :
    (Amber.bondLoop (a :: b :: x :: r) ats
      = Amber.bondLoop r (if a = b then ats else Amber.addBondPair (a / 3) (b / 3) ats)) ∧
    (Amber.amoebaBondLoop (a :: b :: x :: r) ats
      = Amber.amoebaBondLoop r (if a = b then ats else Amber.addBondPair (a - 1) (b - 1) ats)) ∧
    (∀ x' : Nat, Amber.bondLoop (a :: b :: x :: r) ats
      = Amber.bondLoop (a :: b :: x' :: r) ats) ∧
    (∀ x' : Nat, Amber.amoebaBondLoop (a :: b :: x :: r) ats
      = Amber.amoebaBondLoop (a :: b :: x' :: r) ats) :=
  ⟨rfl, rfl, fun _ => rfl, fun _ => rfl⟩

lemma setNames_length : ∀ (as : List Amber.Atom) (ns : List String),
    (Amber.setNames as ns).length = as.length
  | _ :: as, _ :: ns => by simp [Amber.setNames, setNames_length as ns]
  | [], ns => by cases ns <;> rfl
  | _ :: _, [] => rfl

lemma setCharges_length : ∀ (as : List Amber.Atom) (cs : List Int),
    (Amber.setCharges as cs).length = as.length
  | _ :: as, _ :: cs => by simp [Amber.setCharges, setCharges_length as cs]
  | [], cs => by cases cs <;> rfl
  | _ :: _, [] => rfl

lemma setMasses_length : ∀ (as : List Amber.Atom) (ms : List Int),
    (Amber.setMasses as ms).length = as.length
  | _ :: as, _ :: ms => by simp [Amber.setMasses, setMasses_length as ms]
  | [], ms => by cases ms <;> rfl
  | _ :: _, [] => rfl

lemma addBondPair_length (i j : Nat) (ats : List Amber.Atom) :
    (Amber.addBondPair i j ats).length = ats.length := by
  rw [Amber.addBondPair]
  split <;> split <;> simp [addBond_length]

lemma bondLoop_length : ∀ (bl : List Nat) (ats : List Amber.Atom),
    (Amber.bondLoop bl ats).length = ats.length
  | a :: b :: x :: rest, ats => by
    rw [show Amber.bondLoop (a :: b :: x :: rest) ats
        = Amber.bondLoop rest (if a = b then ats else Amber.addBondPair (a / 3) (b / 3) ats)
      from rfl, bondLoop_length rest]
    split <;> simp [addBondPair_length]
  | [], _ => rfl
  | [_], _ => rfl
  | [_, _], _ => rfl

lemma amoebaBondLoop_length : ∀ (bl : List Nat) (ats : List Amber.Atom),
    (Amber.amoebaBondLoop bl ats).length = ats.length
  | a :: b :: x :: rest, ats => by
    rw [show Amber.amoebaBondLoop (a :: b :: x :: rest) ats
        = Amber.amoebaBondLoop rest (if a = b then ats else Amber.addBondPair (a - 1) (b - 1) ats)
      from rfl, amoebaBondLoop_length rest]
    split <;> simp [addBondPair_length]
  | [], _ => rfl
  | [_], _ => rfl
  | [_, _], _ => rfl

/-- C7 (confirmed): a per-atom section whose element count differs from the
atom count fails with the size-mismatch `FileParseError` before writing any
attribute (the state at the throw is the input state), and no section
handler ever changes the atom count. -/
theorem section_size_enforcement :
    (∀ (names : List String) (st : Amber.AmberState), names.length ≠ st.natoms →
        Amber.parseAtomNames names st = (st, some (.fileParse "atom names"))) ∧
    (∀ (charges : List Int) (st : Amber.AmberState), charges.length ≠ st.atoms.length →
        Amber.parseCharges charges st = (st, some (.fileParse "charges"))) ∧
    (∀ (masses : List Int) (st : Amber.AmberState), masses.length ≠ st.atoms.length →
        Amber.parseMasses masses st = (st, some (.fileParse "masses"))) ∧
    (∀ (names : List String) (st : Amber.AmberState),
        (Amber.parseAtomNames names st).1.atoms.length = st.atoms.length) ∧
    (∀ (charges : List Int) (st : Amber.AmberState),
        (Amber.parseCharges charges st).1.atoms.length = st.atoms.length) ∧
    (∀ (masses : List Int) (st : Amber.AmberState),
        (Amber.parseMasses masses st).1.atoms.length = st.atoms.length) ∧
    (∀ (labels : List String) (st : Amber.AmberState),
        (Amber.parseResidueLabels labels st).1.atoms.length = st.atoms.length) ∧
    (∀ (ptrs : List Nat) (st : Amber.AmberState),
        (Amber.parseResiduePointers ptrs st).1.atoms.length = st.atoms.length) ∧
    (∀ (titles : List String) (st : Amber.AmberState),
        (Amber.parseTitle titles st).1.atoms.length = st.atoms.length) ∧
    (∀ (n : Nat) (bl : List Nat) (st : Amber.AmberState),
        (Amber.parseBonds n bl st).1.atoms.length = st.atoms.length) ∧
    (∀ (n : Nat) (bl : List Nat) (st : Amber.AmberState),
        (Amber.parseAmoebaRegularBondList n bl st).1.atoms.length = st.atoms.length) := by
  refine ⟨?_, ?_, ?_, ?_, ?_, ?_, ?_, ?_, ?_, ?_, ?_⟩
  · intro names st h
    simp [Amber.parseAtomNames, h]
  · intro charges st h
    simp [Amber.parseCharges, h]
  · intro masses st h
    simp [Amber.parseMasses, h]
  · intro names st
    rw [Amber.parseAtomNames]
    split <;> simp [setNames_length]
  · intro charges st
    rw [Amber.parseCharges]
    split <;> simp [setCharges_length]
  · intro masses st
    rw [Amber.parseMasses]
    split <;> simp [setMasses_length]
  · intro labels st
    rw [Amber.parseResidueLabels]
    split <;> rfl
  · intro ptrs st
    rw [Amber.parseResiduePointers]
    split <;> rfl
  · intro titles st
    rfl
  · intro n bl st
    rw [Amber.parseBonds]
    split <;> simp [bondLoop_length]
  · intro n bl st
    rw [Amber.parseAmoebaRegularBondList]
    split <;> simp [amoebaBondLoop_length]

/-- Witness for `section_size_enforcement`: one atom name supplied to a
zero-atom model fails with the size-mismatch error, state unchanged. -/
theorem section_size_enforcement_witness :
    Amber.parseAtomNames ["X"] {} = ({}, some (.fileParse "atom names")) :=
  section_size_enforcement.1 ["X"] {} (by decide)

lemma mkAtoms_length (n : Nat) : (Amber.mkAtoms n).length = n := by
  simp [Amber.mkAtoms]

lemma mkAtoms_getD (n i : Nat) (hi : i < n) :
    ((Amber.mkAtoms n).getD i default).id = i + 1 := by
  rw [Amber.mkAtoms, List.getD_eq_getElem?_getD]
  simp [List.getElem?_map, List.getElem?_range, hi]

/-- C9 (confirmed): `parsePointers` throws a `std::logic_error` whenever the
atom container is non-empty, leaving the container unchanged; on an empty
container it appends exactly `natoms` (= `pointers[0]`) fresh atoms, the
i-th (0-based) carrying id `i + 1`. -/
theorem parsePointers_spec (ptrs : List Nat) (st : Amber.AmberState) :
    (st.atoms ≠ [] →
        (Amber.parsePointers ptrs st).2 = some .logicError ∧
        (Amber.parsePointers ptrs st).1.atoms = st.atoms) ∧
    (st.atoms = [] →
        (Amber.parsePointers ptrs st).2 = none ∧
        (Amber.parsePointers ptrs st).1.atoms.length = ptrs.getD 0 0 ∧
        ∀ i : Nat, i < ptrs.getD 0 0 →
          ((Amber.parsePointers ptrs st).1.atoms.getD i default).id = i + 1) := by
  constructor
  · intro h
    have hlen : ¬ st.atoms.length = 0 := by
      simpa [List.length_eq_zero] using h
    constructor <;> simp [Amber.parsePointers, hlen]
  · intro h
    have hlen : st.atoms.length = 0 := by simp [h]
    refine ⟨?_, ?_, ?_⟩
    · simp [Amber.parsePointers, hlen]
    · simp [Amber.parsePointers, hlen, mkAtoms_length]
    · intro i hi
      simp only [Amber.parsePointers, hlen]
      simpa using mkAtoms_getD (ptrs.getD 0 0) i hi

/-- Witness for `parsePointers_spec`: two atoms declared, the second gets
id 2. -/
theorem parsePointers_spec_witness :
    ((Amber.parsePointers [2] {}).1.atoms.getD 1 default).id = 2 :=
  ((parsePointers_spec [2] {}).2 rfl).2.2 1 (by decide)

lemma residueLoop_nil_labels (ptrs : List Nat) (natoms : Nat) :
    ∀ (c i : Nat) (ats : List Amber.Atom),
      Amber.residueLoop [] ptrs natoms c i ats = none
  | 0, i, ats => by simp [Amber.residueLoop]
  | c + 1, i, ats => by simp [Amber.residueLoop]

/-- C10 (confirmed): with `nres = 0` and empty residue label/pointer arrays,
the size-equality check of `assignResidues` passes, but the `uint` loop
bound `nres - 1` underflows and `residue_labels[0]` is read out of bounds —
the error branch of the `Option`-indexed embedding is reached, so the
result is the out-of-bounds error, not a successful (or size-check-failed)
finalization. -/
theorem assignResidues_nres_zero_unsafe (st : Amber.AmberState)
    (h0 : st.nres = 0) (h1 : st.residue_labels = [])
    (h2 : st.residue_pointers = []) :
    Amber.assignResidues st = .error .outOfBounds := by
  have hcond : st.residue_pointers.length = st.nres ∧ st.residue_labels.length = st.nres := by
    rw [h0, h1, h2]
    simp
  rw [Amber.assignResidues, if_pos hcond, h1, residueLoop_nil_labels]

/-- Witness for `assignResidues_nres_zero_unsafe` at the default (empty)
state. -/
theorem assignResidues_nres_zero_witness :
    Amber.assignResidues {} = .error .outOfBounds :=
  assignResidues_nres_zero_unsafe {} rfl rfl rfl

/-- C1 (corrected).  On the concrete model — 10 atoms, residue labels of
length 3, residue pointers `[1, 5, 9]` — `assignResidues` walks residues
`0 .. nres-2` over the half-open 1-based ranges `[pointer[i], pointer[i+1])`
and gives the last residue every remaining atom through the end of the atom
array, exactly as claimed; but the residue id stamped on each atom is
1-based (`curresid` is pre-incremented from 0), so atoms 1–4 carry residue
id 1 (the first residue, label index 0), atoms 5–8 id 2, atoms 9–10 id 3 —
not ids 0, 1, 2 as the claim states (see
`assignResidues_resid_not_zero_cex`). -/
theorem assignResidues_concrete :
    (Amber.assignResidues Amber.c1State).toOption.map
        (fun s => s.atoms.map (fun a => (a.resid, a.resname)))
      = some [(1, "AAA"), (1, "AAA"), (1, "AAA"), (1, "AAA"),
              (2, "BBB"), (2, "BBB"), (2, "BBB"), (2, "BBB"),
              (3, "CCC"), (3, "CCC")] := by
  decide

/-- C1 counterexample: atom 1 (0-based index 0) is stamped with residue id
1, not residue id 0. -/
theorem assignResidues_resid_not_zero_cex :
    Amber.residOf (Amber.assignResidues Amber.c1State) 0 = 1 ∧
    Amber.residOf (Amber.assignResidues Amber.c1State) 0 ≠ 0 := by
  constructor <;> decide
